import Mathlib

/-!
# Verification of the activity-rule-editor layout and export pipeline

A shallow embedding of the measurement, layout, normalization, image-rewrite,
nine-slice, export-driver and export-orchestrator logic of the
`activity-rule-editor` repository, together with theorems settling the
specification claims about those components.

Numbers are modelled as rationals (the source works with finite JS numbers
everywhere relevant; the `isFinite` guards of the source become vacuous).
Strings are modelled as lists of characters.  The canvas text-metrics
primitive `ctx.measureText` is abstracted as a width oracle
`cw : ℚ → Char → ℚ` (font size → character → measured width); the font
family is absorbed into the oracle.
-/

/-- JS strings, modelled as character lists. -/
abbrev LStr := List Char

/-- Coerce a Lean string literal to the model's string type. -/
def str (s : String) : LStr := s.data

/-- JS string truthiness for an optional string field:
`undefined`, `null` and the empty string are falsy. -/
def truthyOptStr : Option LStr → Bool
  | none => false
  | some s => !s.isEmpty

/-! ## 4.1 Text measurement (`src/unnamed/part_000`, `measurePlainTextHeight`) -/

/-- JS `String.prototype.split` with a single-character separator:
`splitChar sep s` never returns `[]` and keeps empty segments. -/
def splitChar (sep : Char) : LStr → List LStr
  | [] => [[]]
  | c :: cs =>
    if c = sep then [] :: splitChar sep cs
    else
      match splitChar sep cs with
      | [] => [[c]]
      | p :: ps => (c :: p) :: ps

/-- The per-paragraph wrapping loop of `measurePlainTextHeight`:
walks the paragraph left to right with a running line-width accumulator
`cur` and a line counter `n`; a character whose width would overflow
`width` starts a new line and resets the accumulator to that width. -/
def wrapLoop (cwf : Char → ℚ) (width : ℚ) : LStr → ℚ → ℕ → ℕ
  | [], _, n => n
  | c :: cs, cur, n =>
    if width < cur + cwf c then wrapLoop cwf width cs (cwf c) (n + 1)
    else wrapLoop cwf width cs (cur + cwf c) n

/-- Line count of one paragraph: an empty paragraph counts one line,
otherwise the wrapping loop starts at width 0 with one open line. -/
def paragraphLines (cwf : Char → ℚ) (width : ℚ) (p : LStr) : ℕ :=
  if p = [] then 1 else wrapLoop cwf width p 0 1

/-- Total line count of a text: paragraphs are obtained by splitting on
newline characters. -/
def totalLines (cwf : Char → ℚ) (width : ℚ) (text : LStr) : ℕ :=
  ((splitChar '\n' text).map (paragraphLines cwf width)).sum

/-- `measurePlainTextHeight` (part_000 lines 604-672).  Degenerate inputs
return 0; otherwise the height is `⌈lines × fontSize × lineHeight⌉`,
guarded to a positive result.  `cw` abstracts `measureTextWidth` with the
font string built from the font size. -/
def measurePlainTextHeight (cw : ℚ → Char → ℚ) (text : LStr)
    (width fontSize lineHeight : ℚ) : ℚ :=
  if text = [] ∨ width ≤ 0 ∨ fontSize ≤ 0 ∨ lineHeight ≤ 0 then 0
  else
    let result : ℚ :=
      ((⌈(totalLines (cw fontSize) width text : ℚ) * fontSize * lineHeight⌉ : ℤ) : ℚ)
    if 0 < result then result else 0

/-! ### Specification-side greedy-wrap description (for claim C4)

The spec describes the wrap as a greedy partition of each paragraph into
lines.  These definitions follow the spec's words; the refinement theorem
compares them with the source translation above. -/

/-- Measured width of a line under the width oracle. -/
def lineWidth (cwf : Char → ℚ) (l : LStr) : ℚ := (l.map cwf).sum

/-- Greedy line partition described by the spec: characters are appended to
the current line; a character that would exceed the target width closes
the line and becomes the first character of the next. -/
def greedyLinesAux (cwf : Char → ℚ) (width : ℚ) : LStr → LStr → List LStr
  | [], cur => [cur]
  | c :: cs, cur =>
    if width < lineWidth cwf cur + cwf c then cur :: greedyLinesAux cwf width cs [c]
    else greedyLinesAux cwf width cs (cur ++ [c])

/-- Spec-side paragraph line count: one line for an empty paragraph,
otherwise the size of the greedy partition. -/
def specParagraphLines (cwf : Char → ℚ) (width : ℚ) (p : LStr) : ℕ :=
  if p = [] then 1 else (greedyLinesAux cwf width p []).length

/-- Spec-side total line count over newline-split paragraphs. -/
def specTotalLines (cwf : Char → ℚ) (width : ℚ) (text : LStr) : ℕ :=
  ((splitChar '\n' text).map (specParagraphLines cwf width)).sum

/-- A constant width oracle used for concrete instances. -/
def cwOne : ℚ → Char → ℚ := fun _ _ => 1

/-! ### Lemmas about the wrap loop -/

theorem splitChar_ne_nil (sep : Char) (l : LStr) : splitChar sep l ≠ [] := by
  cases l with
  | nil => simp [splitChar]
  | cons c cs =>
    simp only [splitChar]
    split
    · simp
    · split <;> simp

theorem wrapLoop_le (cwf : Char → ℚ) (width : ℚ) (p : LStr) :
    ∀ (cur : ℚ) (n : ℕ), n ≤ wrapLoop cwf width p cur n := by
  induction p with
  | nil => intro cur n; simp [wrapLoop]
  | cons c cs ih =>
    intro cur n
    simp only [wrapLoop]
    split
    · exact le_trans (Nat.le_succ n) (ih (cwf c) (n + 1))
    · exact ih (cur + cwf c) n

theorem paragraphLines_pos (cwf : Char → ℚ) (width : ℚ) (p : LStr) :
    1 ≤ paragraphLines cwf width p := by
  unfold paragraphLines
  split
  · exact le_refl 1
  · exact wrapLoop_le cwf width p 0 1

theorem totalLines_pos (cwf : Char → ℚ) (width : ℚ) (text : LStr) :
    1 ≤ totalLines cwf width text := by
  unfold totalLines
  cases h : splitChar '\n' text with
  | nil => exact absurd h (splitChar_ne_nil '\n' text)
  | cons p ps =>
    simp only [List.map_cons, List.sum_cons]
    have := paragraphLines_pos cwf width p
    omega

/-- The source wrap loop counts exactly the greedy lines of the spec:
with the accumulator holding the width of the current partial line `cur`
and `n` open lines so far, the loop returns `n - 1` plus the number of
greedy lines still to be produced. -/
theorem wrapLoop_eq_greedy (cwf : Char → ℚ) (width : ℚ) (p : LStr) :
    ∀ (cur : LStr) (n : ℕ), 1 ≤ n →
      wrapLoop cwf width p (lineWidth cwf cur) n =
        n - 1 + (greedyLinesAux cwf width p cur).length := by
  induction p with
  | nil =>
    intro cur n hn
    simp only [wrapLoop, greedyLinesAux, List.length_singleton]
    omega
  | cons c cs ih =>
    intro cur n hn
    simp only [wrapLoop, greedyLinesAux]
    split
    · have h1 : lineWidth cwf [c] = cwf c := by simp [lineWidth]
      have h2 := ih [c] (n + 1) (by omega)
      rw [h1] at h2
      rw [h2]
      simp only [List.length_cons]
      omega
    · have h1 : lineWidth cwf (cur ++ [c]) = lineWidth cwf cur + cwf c := by
        simp [lineWidth]
      have h2 := ih (cur ++ [c]) n hn
      rw [h1] at h2
      exact h2

theorem paragraphLines_eq_spec (cwf : Char → ℚ) (width : ℚ) (p : LStr) :
    paragraphLines cwf width p = specParagraphLines cwf width p := by
  unfold paragraphLines specParagraphLines
  split
  · rfl
  · have h0 : lineWidth cwf [] = 0 := by simp [lineWidth]
    have := wrapLoop_eq_greedy cwf width p [] 1 (le_refl 1)
    rw [h0] at this
    simpa using this

theorem totalLines_eq_spec (cwf : Char → ℚ) (width : ℚ) (text : LStr) :
    totalLines cwf width text = specTotalLines cwf width text := by
  unfold totalLines specTotalLines
  congr 1
  exact List.map_congr_left (fun p _ => paragraphLines_eq_spec cwf width p)

/-! ### Claims C3 and C4 -/

/-- C3 (counterexample): with unit character widths, one character at
font size 24 and line height 1.6 measures to 39 pixels, which is not an
integer multiple of `fontSize × lineHeight = 38.4` — the ceiling breaks
the "non-negative multiple" reading of the claim. -/
theorem measure_height_not_multiple :
    measurePlainTextHeight cwOne (str ("a")) 10 24 (8 / 5) = 39 ∧
    ¬ ∃ k : ℕ, (39 : ℚ) = (k : ℚ) * (24 * (8 / 5)) := by
  constructor
  · have hL : totalLines (cwOne 24) 10 (str ("a")) = 1 := by
      simp +decide only [totalLines, splitChar, str]
      norm_num [paragraphLines, wrapLoop, cwOne]
    have hc : (⌈(totalLines (cwOne 24) 10 (str ("a")) : ℚ) * 24 * (8 / 5)⌉ : ℤ) = 39 := by
      rw [hL]
      norm_num [Int.ceil_eq_iff]
    have hg : ¬ (str ("a") = [] ∨ (10 : ℚ) ≤ 0 ∨ (24 : ℚ) ≤ 0 ∨ (8 / 5 : ℚ) ≤ 0) := by
      push_neg
      exact ⟨by decide, by norm_num, by norm_num, by norm_num⟩
    unfold measurePlainTextHeight
    rw [if_neg hg]
    simp only [hc]
    norm_num
  · rintro ⟨k, hk⟩
    have h5 : (k : ℚ) * 192 = 195 := by
      field_simp at hk
      linarith
    have hk' : k * 192 = 195 := by exact_mod_cast h5
    omega

/-- C3 (amended): the measured text height is non-negative, it is the
ceiling of a positive-integer multiple of `fontSize × lineHeight` whenever
it is non-zero, and it is 0 iff the text is empty or any of
width/fontSize/lineHeight is non-positive. -/
theorem measure_height_ceiling_multiple (cw : ℚ → Char → ℚ) (text : LStr)
    (width fontSize lineHeight : ℚ) :
    0 ≤ measurePlainTextHeight cw text width fontSize lineHeight ∧
    (measurePlainTextHeight cw text width fontSize lineHeight = 0 ∨
      ∃ n : ℕ, 0 < n ∧ measurePlainTextHeight cw text width fontSize lineHeight =
        ((⌈(n : ℚ) * fontSize * lineHeight⌉ : ℤ) : ℚ)) ∧
    (measurePlainTextHeight cw text width fontSize lineHeight = 0 ↔
      text = [] ∨ width ≤ 0 ∨ fontSize ≤ 0 ∨ lineHeight ≤ 0) := by
  by_cases hg : text = [] ∨ width ≤ 0 ∨ fontSize ≤ 0 ∨ lineHeight ≤ 0
  · have hm : measurePlainTextHeight cw text width fontSize lineHeight = 0 := by
      simp only [measurePlainTextHeight, if_pos hg]
    exact ⟨hm.ge, Or.inl hm, by simp [hm, hg]⟩
  · have hg' := hg
    push_neg at hg'
    obtain ⟨ht, hw, hf, hl⟩ := hg'
    have hL : 1 ≤ totalLines (cw fontSize) width text := totalLines_pos _ _ _
    have hLq : (0 : ℚ) < (totalLines (cw fontSize) width text : ℚ) := by
      exact_mod_cast Nat.lt_of_lt_of_le Nat.zero_lt_one hL
    have hpos : (0 : ℚ) <
        (totalLines (cw fontSize) width text : ℚ) * fontSize * lineHeight := by
      positivity
    have hceil : (0 : ℤ) <
        ⌈(totalLines (cw fontSize) width text : ℚ) * fontSize * lineHeight⌉ :=
      Int.ceil_pos.mpr hpos
    have hres : (0 : ℚ) <
        ((⌈(totalLines (cw fontSize) width text : ℚ) * fontSize * lineHeight⌉ : ℤ) : ℚ) := by
      exact_mod_cast hceil
    have hm : measurePlainTextHeight cw text width fontSize lineHeight =
        ((⌈(totalLines (cw fontSize) width text : ℚ) * fontSize * lineHeight⌉ : ℤ) : ℚ) := by
      simp only [measurePlainTextHeight, if_neg hg, if_pos hres]
    refine ⟨hm ▸ hres.le, Or.inr ⟨totalLines (cw fontSize) width text, by omega, hm⟩, ?_⟩
    constructor
    · intro h0
      exact absurd (h0 ▸ hm.symm) (ne_of_gt hres)
    · intro habs
      exact absurd habs hg

/-- C4: for non-degenerate inputs, `measurePlainTextHeight` computes the
ceiling of (greedy-wrap line count × fontSize × lineHeight), where the
line count splits on newlines, counts one line per empty paragraph, and
partitions each non-empty paragraph greedily left to right, resetting the
accumulator to the overflowing character's width. -/
theorem measure_height_greedy_wrap (cw : ℚ → Char → ℚ) (text : LStr)
    (width fontSize lineHeight : ℚ)
    (ht : text ≠ []) (hw : 0 < width) (hf : 0 < fontSize) (hl : 0 < lineHeight) :
    measurePlainTextHeight cw text width fontSize lineHeight =
      ((⌈(specTotalLines (cw fontSize) width text : ℚ) * fontSize * lineHeight⌉ : ℤ) : ℚ) := by
  have hg : ¬ (text = [] ∨ width ≤ 0 ∨ fontSize ≤ 0 ∨ lineHeight ≤ 0) := by
    push_neg
    exact ⟨ht, hw, hf, hl⟩
  have hL : 1 ≤ totalLines (cw fontSize) width text := totalLines_pos _ _ _
  have hLq : (0 : ℚ) < (totalLines (cw fontSize) width text : ℚ) := by
    exact_mod_cast Nat.lt_of_lt_of_le Nat.zero_lt_one hL
  have hpos : (0 : ℚ) <
      (totalLines (cw fontSize) width text : ℚ) * fontSize * lineHeight := by
    positivity
  have hres : (0 : ℚ) <
      ((⌈(totalLines (cw fontSize) width text : ℚ) * fontSize * lineHeight⌉ : ℤ) : ℚ) := by
    exact_mod_cast Int.ceil_pos.mpr hpos
  calc measurePlainTextHeight cw text width fontSize lineHeight
      = ((⌈(totalLines (cw fontSize) width text : ℚ) * fontSize * lineHeight⌉ : ℤ) : ℚ) := by
        simp only [measurePlainTextHeight, if_neg hg, if_pos hres]
    _ = ((⌈(specTotalLines (cw fontSize) width text : ℚ) * fontSize * lineHeight⌉ : ℤ) : ℚ) := by
        rw [totalLines_eq_spec]

/-- Witness for C4 at a concrete input: the text "ab" at width 1 with unit
character widths wraps into two greedy lines, and the measured height is
the ceiling of that line count. -/
theorem measure_height_greedy_wrap_witness :
    measurePlainTextHeight cwOne (str ("ab")) 1 1 1 =
      ((⌈(specTotalLines (cwOne 1) 1 (str ("ab")) : ℚ) * 1 * 1⌉ : ℤ) : ℚ) :=
  measure_height_greedy_wrap cwOne (str ("ab")) 1 1 1
    (by decide) (by norm_num) (by norm_num) (by norm_num)

/-! ## Data model (`src/web/src/renderer/canvas/types`, used across components)

Field names follow the source; the source's `_blockType`/`_blockTitle`
derived-metadata fields are rendered `blockType`/`blockTitle`. -/

/-- Polymorphic image reference: a bare string URL or a structured object
carrying a URL (further metadata is irrelevant to every claim). -/
inductive ImageRef where
  | url (s : LStr)
  | meta (u : Option LStr)
deriving DecidableEq

/-- A reward grid item. -/
structure Reward where
  name : Option LStr := none
  desc : Option LStr := none
  image : Option ImageRef := none
deriving DecidableEq

/-- A section; `blockType`/`blockTitle` are the derived metadata attached
by page normalization. -/
structure Section where
  title : Option LStr := none
  content : Option LStr := none
  rewards : Option (List Reward) := none
  blockType : Option LStr := none
  blockTitle : Option LStr := none
deriving DecidableEq

/-- A nested-shape block grouping sections. -/
structure Block where
  block_type : Option LStr := none
  block_title : Option LStr := none
  sections : Option (List Section) := none
deriving DecidableEq

/-- A page, in either historical shape (flat `sections` or nested `blocks`). -/
structure Page where
  region : Option LStr := none
  sections : Option (List Section) := none
  blocks : Option (List Block) := none
deriving DecidableEq

/-- A sheet's document data. -/
structure Data where
  pages : Option (List Page) := none
deriving DecidableEq

/-- Four-sided padding / slice insets. -/
structure Pad where
  t : ℚ
  r : ℚ
  b : ℚ
  l : ℚ
deriving DecidableEq

/-- Font configuration (the family is absorbed into the width oracle). -/
structure FontCfg where
  size : ℚ
  lineHeight : ℚ
deriving DecidableEq

/-- Border configuration. -/
structure BorderCfg where
  image : LStr
  slice : Pad
deriving DecidableEq

/-- The user-editable style configuration. -/
structure StyleCfg where
  pageWidth : ℚ
  pad : Pad
  titleColor : LStr
  contentColor : LStr
  border : BorderCfg
  font : FontCfg
deriving DecidableEq

/-- `defaultStyle` (part_000 lines 11-20); line height 1.6 is the rational 8/5. -/
def defaultStyle : StyleCfg where
  pageWidth := 750
  pad := ⟨100, 48, 100, 48⟩
  titleColor := str ("#0f172a")
  contentColor := str ("#334155")
  border := ⟨[], ⟨100, 66, 100, 66⟩⟩
  font := ⟨24, 8 / 5⟩

/-! ## Image-reference rewriting (part_000, `filenameOf` lines 24-33 and
`rewriteImages` lines 35-71) -/

/-- `filenameOf`: strip the query and fragment, split the rest on `/` and
take the last segment, falling back to the whole stripped string when the
last segment is empty. -/
def filenameOf (p : LStr) : LStr :=
  let q := p.takeWhile (· ≠ '?')
  let h := q.takeWhile (· ≠ '#')
  let segs := splitChar '/' h
  let last := segs.getLastD []
  if last = [] then h else last

/-- The effective URL of an image reference:
`typeof r.image === 'string' ? r.image : r.image?.url || ''`. -/
def effUrl : ImageRef → LStr
  | .url s => s
  | .meta u => u.getD []

/-- JS truthiness of the `image` field (`!r.image`): absent and
empty-string references are falsy, object references are truthy. -/
def truthyImage : Option ImageRef → Bool
  | none => false
  | some (.url s) => !s.isEmpty
  | some (.meta _) => true

/-- Per-reward rewrite step of `rewriteImages`: look the extracted
filename up in the image map and substitute the data URI when the lookup
result is truthy. -/
def rewriteReward (images : List (LStr × LStr)) (r : Reward) : Reward :=
  if !truthyImage r.image then r
  else
    match r.image with
    | none => r
    | some img =>
      match images.lookup (filenameOf (effUrl img)) with
      | some uri => if uri = [] then r else { r with image := some (.url uri) }
      | none => r

/-- Per-section rewrite: map the reward rewrite over `s.rewards || []`. -/
def rewriteSection (images : List (LStr × LStr)) (s : Section) : Section :=
  { s with rewards := some ((s.rewards.getD []).map (rewriteReward images)) }

/-- Per-block rewrite: map the section rewrite over `block.sections || []`. -/
def rewriteBlock (images : List (LStr × LStr)) (b : Block) : Block :=
  { b with sections := some ((b.sections.getD []).map (rewriteSection images)) }

/-- Per-page rewrite: nested shape when `p.blocks` is non-empty, flat
shape otherwise. -/
def rewritePage (images : List (LStr × LStr)) (p : Page) : Page :=
  if 0 < (p.blocks.getD []).length then
    { p with blocks := some ((p.blocks.getD []).map (rewriteBlock images)) }
  else
    { p with sections := some ((p.sections.getD []).map (rewriteSection images)) }

/-- `rewriteImages`: identity when the image map is absent or has no
keys, otherwise rewrite every page of `data.pages || []`. -/
def rewriteImages (data : Data) (images : Option (List (LStr × LStr))) : Data :=
  match images with
  | none => data
  | some m =>
    if m.length = 0 then data
    else { data with pages := some ((data.pages.getD []).map (rewritePage m)) }

/-! ## Page-shape normalization (part_002, `normalizePage` lines 12-38) -/

/-- `normalizePage`: a page with a non-empty `blocks` list is flattened
into `sections`, each section receiving the owning block's type and title
as derived metadata, and `blocks` is cleared; any other page is returned
unchanged. -/
def normalizePage (p : Page) : Page :=
  if 0 < (p.blocks.getD []).length then
    let allSections := (p.blocks.getD []).foldl (fun acc b =>
      match b.sections with
      | some ss =>
        if 0 < ss.length then
          acc ++ ss.map (fun s => { s with blockType := b.block_type, blockTitle := b.block_title })
        else acc
      | none => acc) []
    { p with sections := some allSections, blocks := none }
  else p

/-! ### Claims C5, C7, C10 -/

/-- Mapping an idempotent function twice is the same as mapping it once. -/
theorem map_idem {α : Type} (f : α → α) (hf : ∀ a, f (f a) = f a) (l : List α) :
    (l.map f).map f = l.map f := by
  induction l with
  | nil => rfl
  | cons a t ih => simp only [List.map_cons, hf, ih]

/-- A stable image map: any truthy value it can produce either has no
entry under its own extracted filename, or a falsy one, or itself. -/
def stableImageMap (m : List (LStr × LStr)) : Prop :=
  ∀ k v, m.lookup k = some v → v ≠ [] →
    m.lookup (filenameOf v) = none ∨ m.lookup (filenameOf v) = some [] ∨
      m.lookup (filenameOf v) = some v

theorem rewriteReward_idem (m : List (LStr × LStr)) (hm : stableImageMap m)
    (r : Reward) : rewriteReward m (rewriteReward m r) = rewriteReward m r := by
  by_cases ht : truthyImage r.image = true
  · cases himg : r.image with
    | none => simp [truthyImage, himg] at ht
    | some img =>
      rw [himg] at ht
      cases hlk : m.lookup (filenameOf (effUrl img)) with
      | none =>
        have heq : rewriteReward m r = r := by
          unfold rewriteReward
          simp [himg, ht, hlk]
        rw [heq, heq]
      | some uri =>
        by_cases hu : uri = []
        · subst hu
          have heq : rewriteReward m r = r := by
            unfold rewriteReward
            simp [himg, ht, hlk]
          rw [heq, heq]
        · have heq : rewriteReward m r = { r with image := some (.url uri) } := by
            unfold rewriteReward
            simp [himg, ht, hlk, hu]
          have htr : truthyImage (some (ImageRef.url uri)) = true := by
            simp [truthyImage, hu]
          have hfix : rewriteReward m { r with image := some (ImageRef.url uri) } =
              { r with image := some (ImageRef.url uri) } := by
            unfold rewriteReward
            rcases hm _ _ hlk hu with h | h | h <;> simp [htr, effUrl, h, hu]
          rw [heq, hfix]
  · have heq : rewriteReward m r = r := by
      unfold rewriteReward
      simp [ht]
    rw [heq, heq]

theorem rewriteSection_idem (m : List (LStr × LStr)) (hm : stableImageMap m)
    (s : Section) : rewriteSection m (rewriteSection m s) = rewriteSection m s := by
  unfold rewriteSection
  simp [map_idem _ (rewriteReward_idem m hm)]

theorem rewriteBlock_idem (m : List (LStr × LStr)) (hm : stableImageMap m)
    (b : Block) : rewriteBlock m (rewriteBlock m b) = rewriteBlock m b := by
  unfold rewriteBlock
  simp [map_idem _ (rewriteSection_idem m hm)]

theorem rewritePage_idem (m : List (LStr × LStr)) (hm : stableImageMap m)
    (p : Page) : rewritePage m (rewritePage m p) = rewritePage m p := by
  by_cases hb : 0 < (p.blocks.getD []).length
  · have h1 : rewritePage m p =
        { p with blocks := some ((p.blocks.getD []).map (rewriteBlock m)) } := by
      unfold rewritePage
      rw [if_pos hb]
    rw [h1]
    have hb2 : 0 < ((some ((p.blocks.getD []).map (rewriteBlock m))).getD []).length := by
      simpa using hb
    unfold rewritePage
    rw [if_pos hb2]
    simp [map_idem _ (rewriteBlock_idem m hm)]
  · have h1 : rewritePage m p =
        { p with sections := some ((p.sections.getD []).map (rewriteSection m)) } := by
      unfold rewritePage
      rw [if_neg hb]
    rw [h1]
    unfold rewritePage
    rw [if_neg (by simpa using hb)]
    simp [map_idem _ (rewriteSection_idem m hm)]

/-- C5 (amended): image-reference rewriting is idempotent for every image
map whose own values are stable under re-lookup (in particular for real
parse-service maps, whose values are data URIs that are not map keys);
absent and empty maps are trivially covered. -/
theorem rewriteImages_idempotent_of_stable (data : Data)
    (images : Option (List (LStr × LStr)))
    (hm : ∀ m, images = some m → stableImageMap m) :
    rewriteImages (rewriteImages data images) images = rewriteImages data images := by
  cases images with
  | none => rfl
  | some m =>
    by_cases hz : m.length = 0
    · simp only [rewriteImages, if_pos hz]
    · have h1 : rewriteImages data (some m) =
          { data with pages := some ((data.pages.getD []).map (rewritePage m)) } := by
        simp only [rewriteImages, if_neg hz]
      rw [h1]
      simp only [rewriteImages, if_neg hz]
      simp [map_idem _ (rewritePage_idem m (hm m rfl))]

/-- Witness map for C5: one key whose value's extracted filename is not a
key of the map. -/
def imgMapOk : List (LStr × LStr) := [(str ("a.png"), str ("data:image-x"))]

/-- Witness document for C5 and counterexample document for C5: a single
flat page with one reward referencing image "a". -/
def dataOneReward : Data :=
  { pages := some [{ sections := some [{ rewards := some [{ image := some (.url (str ("a"))) }] }] }] }

/-- Witness for C5 at a concrete stable map and document. -/
theorem rewriteImages_idempotent_of_stable_witness :
    rewriteImages (rewriteImages dataOneReward (some imgMapOk)) (some imgMapOk) =
      rewriteImages dataOneReward (some imgMapOk) :=
  rewriteImages_idempotent_of_stable dataOneReward (some imgMapOk)
    (fun m hmeq => by
      cases hmeq
      intro k v hkv hv
      left
      revert hkv
      unfold imgMapOk
      simp only [List.lookup]
      split
      · intro h
        cases h
        decide
      · intro h
        cases h)

/-- A two-entry chained map on which rewriting is not idempotent. -/
def imgMapCycle : List (LStr × LStr) := [(str ("a"), str ("b")), (str ("b"), str ("c"))]

/-- C5 (counterexample): with the chained map `a ↦ b, b ↦ c`, the first
rewrite maps the reward image to "b" and a second rewrite maps it on to
"c", so rewriting twice differs from rewriting once. -/
theorem rewriteImages_not_idempotent :
    rewriteImages (rewriteImages dataOneReward (some imgMapCycle)) (some imgMapCycle) ≠
      rewriteImages dataOneReward (some imgMapCycle) := by
  decide

/-- C10: rewriting with an absent or empty image map returns the document
unchanged. -/
theorem rewriteImages_empty_map_identity (data : Data) :
    rewriteImages data none = data ∧ rewriteImages data (some []) = data :=
  ⟨rfl, rfl⟩

/-- The sections contributed by one block during normalization, tagged
with the block's type and title. -/
def blockTaggedSections (b : Block) : List Section :=
  (b.sections.getD []).map
    (fun s => { s with blockType := b.block_type, blockTitle := b.block_title })

theorem normalizeFold_eq (bs : List Block) :
    ∀ acc : List Section,
      (bs.foldl (fun acc b =>
        match b.sections with
        | some ss =>
          if 0 < ss.length then
            acc ++ ss.map (fun s =>
              { s with blockType := b.block_type, blockTitle := b.block_title })
          else acc
        | none => acc) acc) = acc ++ bs.flatMap blockTaggedSections := by
  induction bs with
  | nil => intro acc; simp
  | cons b t ih =>
    intro acc
    simp only [List.foldl_cons, List.flatMap_cons]
    cases hbs : b.sections with
    | none =>
      rw [ih]
      simp [blockTaggedSections, hbs]
    | some ss =>
      by_cases hlen : 0 < ss.length
      · simp only [if_pos hlen]
        rw [ih]
        simp [blockTaggedSections, hbs, List.append_assoc]
      · have : ss = [] := by
          cases ss
          · rfl
          · simp at hlen
        subst this
        simp only [if_pos, if_neg hlen]
        rw [ih]
        simp [blockTaggedSections, hbs]

/-- C7 (counterexample): the page with neither `sections` nor `blocks` is
returned unchanged by normalization, so its section sequence is still
absent (null), not an empty list. -/
theorem normalizePage_neither_counterexample :
    normalizePage ({} : Page) = ({} : Page) ∧ (normalizePage ({} : Page)).sections = none :=
  ⟨rfl, rfl⟩

/-- C7 (amended): normalization is pure and total; a page whose `blocks`
list is non-empty is flattened into a non-null section sequence where
each section carries the owning block's type and title, with `blocks`
cleared; every other page — including one with neither shape, whose
section sequence stays absent — is returned unchanged. -/
theorem normalizePage_characterization (p : Page) :
    ((p.blocks = none ∨ p.blocks = some []) → normalizePage p = p) ∧
    (∀ bs, p.blocks = some bs → bs ≠ [] →
      (normalizePage p).region = p.region ∧
      (normalizePage p).blocks = none ∧
      (normalizePage p).sections = some (bs.flatMap blockTaggedSections)) := by
  constructor
  · intro h
    unfold normalizePage
    rcases h with h | h <;> rw [h] <;> simp
  · intro bs hbs hne
    have hlen : 0 < (p.blocks.getD []).length := by
      rw [hbs]
      cases bs
      · exact absurd rfl hne
      · simp
    unfold normalizePage
    rw [if_pos hlen]
    refine ⟨rfl, rfl, ?_⟩
    rw [hbs]
    simp only [Option.getD_some]
    rw [normalizeFold_eq bs []]
    simp

/-- Concrete nested-shape page used as the C7 witness. -/
def pageNested : Page :=
  { blocks := some [{ block_type := some (str ("rules")),
                      block_title := some (str ("B")),
                      sections := some [{ title := some (str ("S")) }] }] }

/-- Witness for C7 at a concrete nested page: one block with one section
is flattened to a non-null tagged section list and `blocks` is cleared. -/
theorem normalizePage_characterization_witness :
    (normalizePage pageNested).blocks = none ∧
    (normalizePage pageNested).sections =
      some [{ title := some (str ("S")), blockType := some (str ("rules")),
              blockTitle := some (str ("B")) }] := by
  have h := (normalizePage_characterization pageNested).2 _ rfl (by decide)
  exact ⟨h.2.1, by rw [h.2.2]; decide⟩

/-! ## 4.4 Page Layout Engine (part_002, `PageCanvas` lines 187-315)

The height computation of `PageCanvas`, with the fixed constants of the
source: `gapH = 12`, `sectionGap = 20`, 3 reward columns, reward gutter
and row gap 12, reward image box `160 + 8`. -/

/-- Section title height: one ceiled line height when the title is truthy
(`section.title ? Math.ceil(size * lineHeight) : 0`). -/
def titleHeight (style : StyleCfg) (s : Section) : ℚ :=
  if truthyOptStr s.title then ((⌈style.font.size * style.font.lineHeight⌉ : ℤ) : ℚ) else 0

/-- Section content height (`section.content && contentW > 0 ? measure : 0`). -/
def contentHeight (cw : ℚ → Char → ℚ) (style : StyleCfg) (contentW : ℚ) (s : Section) : ℚ :=
  if truthyOptStr s.content ∧ 0 < contentW then
    measurePlainTextHeight cw (s.content.getD []) contentW style.font.size style.font.lineHeight
  else 0

/-- Predicted height of one reward item in the grid
(`160 + 8 + (nameH ? nameH + 4 : 0) + (descH ? descH + 4 : 0)`). -/
def rewardItemHeight (cw : ℚ → Char → ℚ) (style : StyleCfg) (rewardColW : ℚ)
    (r : Reward) : ℚ :=
  let nameH : ℚ :=
    if truthyOptStr r.name then ((⌈style.font.size * style.font.lineHeight⌉ : ℤ) : ℚ) else 0
  let descH : ℚ :=
    if truthyOptStr r.desc ∧ 0 < rewardColW then
      measurePlainTextHeight cw (r.desc.getD []) rewardColW (style.font.size - 2)
        style.font.lineHeight
    else 0
  160 + 8 + (if nameH ≠ 0 then nameH + 4 else 0) + (if descH ≠ 0 then descH + 4 else 0)

/-- Maximum predicted item height of one reward-grid row (row `row` holds
items `3*row … min (3*row+3) len − 1`; the max starts from 0). -/
def rewardRowHeight (cw : ℚ → Char → ℚ) (style : StyleCfg) (rewardColW : ℚ)
    (rewards : List Reward) (row : ℕ) : ℚ :=
  ((rewards.drop (row * 3)).take 3).foldl
    (fun m r => max m (rewardItemHeight cw style rewardColW r)) 0

/-- Total reward-grid height: row heights plus a 12px gap between rows. -/
def rewardsHeight (cw : ℚ → Char → ℚ) (style : StyleCfg) (rewardColW : ℚ)
    (rewards : List Reward) : ℚ :=
  let rows := if 0 < rewards.length then (rewards.length + 2) / 3 else 0
  (List.range rows).foldl
    (fun acc row =>
      acc + rewardRowHeight cw style rewardColW rewards row +
        (if row < rows - 1 then 12 else 0)) 0

/-- Total height of one section
(`(titleH ? titleH + gapH : 0) + (contentH ? contentH + gapH : 0) + rewardsH`). -/
def sectionHeight (cw : ℚ → Char → ℚ) (style : StyleCfg) (contentW rewardColW : ℚ)
    (s : Section) : ℚ :=
  let titleH := titleHeight style s
  let contentH := contentHeight cw style contentW s
  let rewardsH := rewardsHeight cw style rewardColW (s.rewards.getD [])
  (if titleH ≠ 0 then titleH + 12 else 0) +
    (if contentH ≠ 0 then contentH + 12 else 0) + rewardsH

/-- The `sections.reduce((sum, s, i) => sum + s.sectionH + (i > 0 ? sectionGap : 0), 0)`
accumulator, with the running index made explicit. -/
def sectionsTotalAux : ℕ → ℚ → List ℚ → ℚ
  | _, sum, [] => sum
  | i, sum, h :: t => sectionsTotalAux (i + 1) (sum + h + if 0 < i then 20 else 0) t

/-- Total height of the section stack including inter-section gaps. -/
def sectionsTotalHeight (hs : List ℚ) : ℚ := sectionsTotalAux 0 0 hs

/-- The content width and reward column width derived from the style
(`contentW = W − pad.l − pad.r`;
`rewardColW = contentW > 0 ? (contentW − 12 × 2) / 3 : 0`). -/
def contentWidth (style : StyleCfg) : ℚ := style.pageWidth - style.pad.l - style.pad.r

def rewardColWidth (style : StyleCfg) : ℚ :=
  if 0 < contentWidth style then (contentWidth style - 12 * (3 - 1)) / 3 else 0

/-- Total page height of `PageCanvas`:
`H = PAD.t + innerH + PAD.b` over the normalized page's sections. -/
def pageTotalHeight (cw : ℚ → Char → ℚ) (page : Page) (style : StyleCfg) : ℚ :=
  let hs := ((normalizePage page).sections.getD []).map
    (sectionHeight cw style (contentWidth style) (rewardColWidth style))
  style.pad.t + sectionsTotalHeight hs + style.pad.b

/-- Claim-side per-section height, following the claim's words: the gaps
are added when a title (resp. content) is *present*, regardless of the
computed height. -/
def sectionHeightClaim (cw : ℚ → Char → ℚ) (style : StyleCfg) (contentW rewardColW : ℚ)
    (s : Section) : ℚ :=
  (if truthyOptStr s.title then titleHeight style s + 12 else 0) +
    (if truthyOptStr s.content then contentHeight cw style contentW s + 12 else 0) +
    rewardsHeight cw style rewardColW (s.rewards.getD [])

/-- Claim-side page height formula. -/
def pageHeightClaim (cw : ℚ → Char → ℚ) (page : Page) (style : StyleCfg) : ℚ :=
  let secs := (normalizePage page).sections.getD []
  let hs := secs.map (sectionHeightClaim cw style (contentWidth style) (rewardColWidth style))
  style.pad.t + hs.sum + 20 * ((secs.length - 1 : ℕ) : ℚ) + style.pad.b

/-! ### Claim C1 -/

theorem sectionsTotalAux_eq (hs : List ℚ) :
    ∀ (i : ℕ) (acc : ℚ), 0 < i →
      sectionsTotalAux i acc hs = acc + hs.sum + 20 * (hs.length : ℚ) := by
  induction hs with
  | nil =>
    intro i acc hi
    simp [sectionsTotalAux]
  | cons h t ih =>
    intro i acc hi
    simp only [sectionsTotalAux, if_pos hi, List.sum_cons, List.length_cons]
    rw [ih (i + 1) _ (by omega)]
    push_cast
    ring

/-- The index-tracking reduce of the source equals the sum of section
heights plus `sectionGap × (count − 1)`. -/
theorem sectionsTotalHeight_eq (hs : List ℚ) :
    sectionsTotalHeight hs = hs.sum + 20 * ((hs.length - 1 : ℕ) : ℚ) := by
  cases hs with
  | nil => simp [sectionsTotalHeight, sectionsTotalAux]
  | cons h t =>
    simp only [sectionsTotalHeight, sectionsTotalAux, Nat.lt_irrefl, if_false,
      List.sum_cons, List.length_cons, Nat.add_sub_cancel]
    rw [sectionsTotalAux_eq t 1 _ (by omega)]
    ring

/-- C1 (amended): the total page height is top padding + the sum of the
computed per-section heights + sectionGap × (sectionCount − 1) + bottom
padding, where a section's height adds the title (resp. content) gap
exactly when the computed title (resp. content) height is nonzero; a page
with zero sections measures exactly top + bottom padding. -/
theorem pageHeight_decomposition (cw : ℚ → Char → ℚ) (page : Page) (style : StyleCfg) :
    pageTotalHeight cw page style =
      style.pad.t +
        (((normalizePage page).sections.getD []).map
          (sectionHeight cw style (contentWidth style) (rewardColWidth style))).sum +
        20 * ((((normalizePage page).sections.getD []).length - 1 : ℕ) : ℚ) +
        style.pad.b ∧
    ((normalizePage page).sections.getD [] = [] →
      pageTotalHeight cw page style = style.pad.t + style.pad.b) := by
  constructor
  · simp only [pageTotalHeight]
    rw [sectionsTotalHeight_eq]
    simp only [List.length_map]
    ring
  · intro h
    simp only [pageTotalHeight]
    rw [h]
    simp [sectionsTotalHeight, sectionsTotalAux]

/-- A flat page with no sections. -/
def pageEmptySections : Page := { sections := some [] }

/-- Witness for C1: a page with zero sections at the default style
measures exactly top padding + bottom padding. -/
theorem pageHeight_decomposition_witness :
    pageTotalHeight cwOne pageEmptySections defaultStyle =
      defaultStyle.pad.t + defaultStyle.pad.b :=
  (pageHeight_decomposition cwOne pageEmptySections defaultStyle).2 rfl

/-- Style whose font size is 0 (any style is admitted by the claim). -/
def styleZeroFont : StyleCfg := { defaultStyle with font := ⟨0, 1⟩ }

/-- A flat page with one titled section and nothing else. -/
def pageOneTitledSection : Page := { sections := some [{ title := some (str ("T")) }] }

/-- C1 (counterexample): with font size 0 the computed title height is 0,
so the code adds no title gap (total 200), while the claim's formula adds
the gap because a title is present (total 212). -/
theorem pageHeight_claim_counterexample :
    pageTotalHeight cwOne pageOneTitledSection styleZeroFont = 200 ∧
    pageHeightClaim cwOne pageOneTitledSection styleZeroFont = 212 ∧
    pageTotalHeight cwOne pageOneTitledSection styleZeroFont ≠
      pageHeightClaim cwOne pageOneTitledSection styleZeroFont := by
  have h1 : pageTotalHeight cwOne pageOneTitledSection styleZeroFont = 200 := by
    norm_num [pageTotalHeight, normalizePage, sectionHeight, titleHeight, contentHeight,
      rewardsHeight, sectionsTotalHeight, sectionsTotalAux, truthyOptStr,
      styleZeroFont, defaultStyle, pageOneTitledSection, str]
  have h2 : pageHeightClaim cwOne pageOneTitledSection styleZeroFont = 212 := by
    norm_num [pageHeightClaim, normalizePage, sectionHeightClaim, titleHeight, contentHeight,
      rewardsHeight, truthyOptStr, styleZeroFont, defaultStyle, pageOneTitledSection, str]
  refine ⟨h1, h2, ?_⟩
  rw [h1, h2]
  norm_num

/-! ## 4.3 Table Layout Engine (part_001, `getRowHeight` lines 115-132)

The measured cell heights are modelled as a partial map from
(row index, column index) to pixels; row index −1 is the header
pseudo-row, exactly as in the source.  `cellPadding = 8`,
`minRowHeight = fontSize * 2`. -/

/-- `getRowHeight`: scan the row's columns, keeping the largest truthy
measured height starting from `minRowHeight`, then add the vertical cell
padding. -/
def getRowHeight (cellHeights : ℤ → ℕ → Option ℚ) (colCount : ℕ) (fontSize : ℚ)
    (rowIdx : ℤ) : ℚ :=
  let minRowHeight := fontSize * 2
  ((List.range colCount).foldl (fun maxHeight colIdx =>
    match cellHeights rowIdx colIdx with
    | some ch => if ch ≠ 0 ∧ maxHeight < ch then ch else maxHeight
    | none => maxHeight) minRowHeight) + 8 * 2

/-- Claim-side row-height formula: per-cell padding added before the
floor at `2 × fontSize`. -/
def rowHeightClaim (cellHeights : ℤ → ℕ → Option ℚ) (colCount : ℕ) (fontSize : ℚ)
    (rowIdx : ℤ) : ℚ :=
  max (fontSize * 2)
    ((((List.range colCount).filterMap (cellHeights rowIdx)).map (· + 8 * 2)).foldl max 0)

/-! ### Claim C6 -/

theorem foldl_cell_max (chs : ℕ → Option ℚ) (l : List ℕ)
    (hpos : ∀ c h, chs c = some h → 0 < h) :
    ∀ a : ℚ, l.foldl (fun mx c =>
      match chs c with
      | some ch => if ch ≠ 0 ∧ mx < ch then ch else mx
      | none => mx) a = (l.filterMap chs).foldl max a := by
  induction l with
  | nil => intro a; rfl
  | cons c t ih =>
    intro a
    simp only [List.foldl_cons, List.filterMap_cons]
    cases hc : chs c with
    | none => exact ih a
    | some h =>
      have hh := hpos c h hc
      simp only [List.foldl_cons]
      have hmax : (if h ≠ 0 ∧ a < h then h else a) = max a h := by
        by_cases hah : a < h
        · rw [if_pos ⟨ne_of_gt hh, hah⟩, max_eq_right hah.le]
        · rw [if_neg (by tauto), max_eq_left (not_lt.mp hah)]
      rw [hmax]
      exact ih (max a h)

/-- C6 (amended): the computed row height is the maximum measured content
height over the row's cells, floored at a minimum of `2 × fontSize`, with
the `2 × cellPadding` added once after the floor — not per cell before
it.  The hypothesis mirrors the measuring effect, which only stores
positive heights. -/
theorem getRowHeight_padding_after_floor (cellHeights : ℤ → ℕ → Option ℚ)
    (colCount : ℕ) (fontSize : ℚ) (rowIdx : ℤ)
    (hpos : ∀ c h, cellHeights rowIdx c = some h → 0 < h) :
    getRowHeight cellHeights colCount fontSize rowIdx =
      ((List.range colCount).filterMap (cellHeights rowIdx)).foldl max (fontSize * 2) +
        8 * 2 := by
  simp only [getRowHeight]
  rw [foldl_cell_max (cellHeights rowIdx) (List.range colCount) hpos]

/-- One 40px-high cell at the header-adjacent row 0 of a one-column table. -/
def cellHeightsOne : ℤ → ℕ → Option ℚ :=
  fun r c => if r = 0 ∧ c = 0 then some 40 else none

/-- Witness for C6 at the concrete one-cell table. -/
theorem getRowHeight_padding_after_floor_witness :
    getRowHeight cellHeightsOne 1 24 0 =
      ((List.range 1).filterMap (cellHeightsOne 0)).foldl max (24 * 2) + 8 * 2 :=
  getRowHeight_padding_after_floor cellHeightsOne 1 24 0 (fun c h hch => by
    have hdef : cellHeightsOne 0 c = if (0 : ℤ) = 0 ∧ c = 0 then some 40 else none := rfl
    rw [hdef] at hch
    split at hch
    · cases hch
      norm_num
    · cases hch)

/-- C6 (counterexample): with font size 24 and a single 40px cell, the
code computes `max(48, 40) + 16 = 64`, while the claim's formula
`max(48, 40 + 16) = 56` differs — the padding is added after the floor,
not per cell. -/
theorem getRowHeight_claim_counterexample :
    getRowHeight cellHeightsOne 1 24 0 = 64 ∧
    rowHeightClaim cellHeightsOne 1 24 0 = 56 ∧
    getRowHeight cellHeightsOne 1 24 0 ≠ rowHeightClaim cellHeightsOne 1 24 0 := by
  have h1 : getRowHeight cellHeightsOne 1 24 0 = 64 := by
    norm_num [getRowHeight, cellHeightsOne, List.range_succ]
  have h2 : rowHeightClaim cellHeightsOne 1 24 0 = 56 := by
    have hc : cellHeightsOne 0 0 = some 40 := rfl
    have hfm : List.filterMap (cellHeightsOne 0) [0] = [40] := by
      simp [List.filterMap_cons, hc]
    norm_num [rowHeightClaim, List.range_succ, hfm, max_def]
  refine ⟨h1, h2, ?_⟩
  rw [h1, h2]
  norm_num

/-! ## 4.2 Nine-Slice Compositor

Two variants exist in the repository: `src/web/src/renderer/canvas/nineSlice.tsx`
draws adjacent regions with a 1px destination overlap; `src/unnamed/part_003`
is the same component without the overlap.  A draw op is a destination
rectangle plus a source crop rectangle. -/

/-- A bitmap's dimensions (the only observable the compositor reads). -/
structure Bitmap where
  width : ℚ
  height : ℚ
deriving DecidableEq

/-- One emitted draw op: destination rect `(dx, dy, dw, dh)` and source
crop `(sx, sy, sw, sh)`. -/
structure DrawOp where
  dx : ℚ
  dy : ℚ
  dw : ℚ
  dh : ℚ
  sx : ℚ
  sy : ℚ
  sw : ℚ
  sh : ℚ
deriving DecidableEq

/-- The overlap variant (`nineSlice.tsx`): corners, edges, center, each
destination expanded by the 1px overlap while source crops stay exact. -/
def nineSliceOps (x y w h : ℚ) (bmp : Option Bitmap) (slice : Pad) : List DrawOp :=
  match bmp with
  | none => []
  | some bm =>
    if w ≤ 0 ∨ h ≤ 0 then []
    else
      let sw := bm.width
      let sh := bm.height
      if sw ≤ 0 ∨ sh ≤ 0 then []
      else
        let sliceT := if 0 ≤ slice.t then slice.t else 0
        let sliceR := if 0 ≤ slice.r then slice.r else 0
        let sliceB := if 0 ≤ slice.b then slice.b else 0
        let sliceL := if 0 ≤ slice.l then slice.l else 0
        let cw := max 0 (sw - sliceL - sliceR)
        let ch := max 0 (sh - sliceT - sliceB)
        let mw := max 0 (w - sliceL - sliceR)
        let mh := max 0 (h - sliceT - sliceB)
        let ov : ℚ := 1
        [⟨x + 0, y + 0, sliceL + ov, sliceT + ov, 0, 0, sliceL, sliceT⟩,
         ⟨x + (w - sliceR - ov), y + 0, sliceR + ov, sliceT + ov, sw - sliceR, 0, sliceR, sliceT⟩,
         ⟨x + 0, y + (h - sliceB - ov), sliceL + ov, sliceB + ov, 0, sh - sliceB, sliceL, sliceB⟩,
         ⟨x + (w - sliceR - ov), y + (h - sliceB - ov), sliceR + ov, sliceB + ov, sw - sliceR, sh - sliceB, sliceR, sliceB⟩,
         ⟨x + (sliceL - ov), y + 0, mw + ov * 2, sliceT + ov, sliceL, 0, cw, sliceT⟩,
         ⟨x + (sliceL - ov), y + (h - sliceB - ov), mw + ov * 2, sliceB + ov, sliceL, sh - sliceB, cw, sliceB⟩,
         ⟨x + 0, y + (sliceT - ov), sliceL + ov, mh + ov * 2, 0, sliceT, sliceL, ch⟩,
         ⟨x + (w - sliceR - ov), y + (sliceT - ov), sliceR + ov, mh + ov * 2, sw - sliceR, sliceT, sliceR, ch⟩,
         ⟨x + (sliceL - ov), y + (sliceT - ov), mw + ov * 2, mh + ov * 2, sliceL, sliceT, cw, ch⟩]

/-- The plain variant (part_003): identical geometry without the overlap. -/
def nineSliceOpsPlain (x y w h : ℚ) (bmp : Option Bitmap) (slice : Pad) : List DrawOp :=
  match bmp with
  | none => []
  | some bm =>
    if w ≤ 0 ∨ h ≤ 0 then []
    else
      let sw := bm.width
      let sh := bm.height
      if sw ≤ 0 ∨ sh ≤ 0 then []
      else
        let sliceT := if 0 ≤ slice.t then slice.t else 0
        let sliceR := if 0 ≤ slice.r then slice.r else 0
        let sliceB := if 0 ≤ slice.b then slice.b else 0
        let sliceL := if 0 ≤ slice.l then slice.l else 0
        let cw := max 0 (sw - sliceL - sliceR)
        let ch := max 0 (sh - sliceT - sliceB)
        let mw := max 0 (w - sliceL - sliceR)
        let mh := max 0 (h - sliceT - sliceB)
        [⟨x + 0, y + 0, sliceL, sliceT, 0, 0, sliceL, sliceT⟩,
         ⟨x + (w - sliceR), y + 0, sliceR, sliceT, sw - sliceR, 0, sliceR, sliceT⟩,
         ⟨x + 0, y + (h - sliceB), sliceL, sliceB, 0, sh - sliceB, sliceL, sliceB⟩,
         ⟨x + (w - sliceR), y + (h - sliceB), sliceR, sliceB, sw - sliceR, sh - sliceB, sliceR, sliceB⟩,
         ⟨x + sliceL, y + 0, mw, sliceT, sliceL, 0, cw, sliceT⟩,
         ⟨x + sliceL, y + (h - sliceB), mw, sliceB, sliceL, sh - sliceB, cw, sliceB⟩,
         ⟨x + 0, y + sliceT, sliceL, mh, 0, sliceT, sliceL, ch⟩,
         ⟨x + (w - sliceR), y + sliceT, sliceR, mh, sw - sliceR, sliceT, sliceR, ch⟩,
         ⟨x + sliceL, y + sliceT, mw, mh, sliceL, sliceT, cw, ch⟩]

/-- A draw op that paints nothing: its destination or source rectangle is
degenerate. -/
def isEmptyOp (o : DrawOp) : Prop :=
  o.dw ≤ 0 ∨ o.dh ≤ 0 ∨ o.sw ≤ 0 ∨ o.sh ≤ 0

/-- A draw op that paints the whole bitmap 1:1 at the origin. -/
def isFullUnscaled (b : Bitmap) (o : DrawOp) : Prop :=
  o = ⟨0, 0, b.width, b.height, 0, 0, b.width, b.height⟩

/-! ### Claim C8 -/

/-- C8 (counterexample): in the shipped overlap variant, with target
dimensions equal to a 100×50 source and all insets 0, the center op draws
the full bitmap into a destination expanded by 1px on every side —
neither empty nor an unscaled full-bitmap draw. -/
theorem nineSlice_overlap_counterexample :
    ¬ ∀ op ∈ nineSliceOps 0 0 100 50 (some ⟨100, 50⟩) ⟨0, 0, 0, 0⟩,
        isEmptyOp op ∨ isFullUnscaled ⟨100, 50⟩ op := by
  intro hall
  have hmem : (⟨-1, -1, 102, 52, 0, 0, 100, 50⟩ : DrawOp) ∈
      nineSliceOps 0 0 100 50 (some ⟨100, 50⟩) ⟨0, 0, 0, 0⟩ := by
    norm_num [nineSliceOps, max_def, DrawOp.mk.injEq]
  have hop := hall _ hmem
  norm_num [isEmptyOp, isFullUnscaled, DrawOp.mk.injEq] at hop

/-- C8 (amended): with target dimensions equal to the source dimensions
and all insets 0, the plain variant degenerates so that every op is empty
or the single unscaled full-bitmap draw (which is emitted); in the
overlap variant every op's source crop is empty except the center's,
which crops the full bitmap but paints it into the target expanded by the
1px cosmetic overlap on every side. -/
theorem nineSlice_degenerate (sw sh : ℚ) (hsw : 0 < sw) (hsh : 0 < sh) :
    (∀ op ∈ nineSliceOpsPlain 0 0 sw sh (some ⟨sw, sh⟩) ⟨0, 0, 0, 0⟩,
      isEmptyOp op ∨ isFullUnscaled ⟨sw, sh⟩ op) ∧
    (⟨0, 0, sw, sh, 0, 0, sw, sh⟩ : DrawOp) ∈
      nineSliceOpsPlain 0 0 sw sh (some ⟨sw, sh⟩) ⟨0, 0, 0, 0⟩ ∧
    (∀ op ∈ nineSliceOps 0 0 sw sh (some ⟨sw, sh⟩) ⟨0, 0, 0, 0⟩,
      (op.sw ≤ 0 ∨ op.sh ≤ 0) ∨ op = ⟨-1, -1, sw + 2, sh + 2, 0, 0, sw, sh⟩) := by
  have hg1 : ¬ (sw ≤ 0 ∨ sh ≤ 0) := by
    push_neg
    exact ⟨hsw, hsh⟩
  have hmw : max 0 (sw - 0 - 0) = sw := by
    rw [sub_zero, sub_zero]
    exact max_eq_right hsw.le
  have hmh : max 0 (sh - 0 - 0) = sh := by
    rw [sub_zero, sub_zero]
    exact max_eq_right hsh.le
  refine ⟨?_, ?_, ?_⟩
  · intro op hop
    simp only [nineSliceOpsPlain, if_neg hg1, ite_self, hmw, hmh] at hop
    simp only [List.mem_cons, List.not_mem_nil, or_false] at hop
    rcases hop with rfl | rfl | rfl | rfl | rfl | rfl | rfl | rfl | rfl <;>
      simp [isEmptyOp, isFullUnscaled]
  · simp only [nineSliceOpsPlain, if_neg hg1, ite_self, hmw, hmh]
    simp [DrawOp.mk.injEq]
  · intro op hop
    simp only [nineSliceOps, if_neg hg1, ite_self, hmw, hmh] at hop
    simp only [List.mem_cons, List.not_mem_nil, or_false] at hop
    rcases hop with rfl | rfl | rfl | rfl | rfl | rfl | rfl | rfl | rfl <;>
      norm_num [DrawOp.mk.injEq]

/-- Witness for C8 at the concrete 100×50 bitmap: the plain variant emits
the unscaled full-bitmap draw. -/
theorem nineSlice_degenerate_witness :
    (⟨0, 0, 100, 50, 0, 0, 100, 50⟩ : DrawOp) ∈
      nineSliceOpsPlain 0 0 100 50 (some ⟨100, 50⟩) ⟨0, 0, 0, 0⟩ :=
  (nineSlice_degenerate 100 50 (by norm_num) (by norm_num)).2.1

/-! ## 4.5 Offscreen Export Driver
(`src/web/src/renderer/canvas/index.tsx`, `OffscreenExporter` lines 8-78)

The stabilization effect is a step function over reported heights.  The
state holds the reference height `prevH` (initially the 2400px
placeholder), the stability counter, and whether rasterization has
happened.  The 5-second timeout fallback is a separate wall-clock path
outside this event-driven machine. -/

structure DriverState where
  prevH : ℚ
  stableCount : ℕ
  exported : Bool
deriving DecidableEq

/-- Initial driver state: `useState(2400)`, `prevHRef = h`,
`stableCountRef = 0`, `hasExportedRef = false`. -/
def driverInit : DriverState := ⟨2400, 0, false⟩

/-- One run of the stabilization effect for a reported height `h`:
within 1px of the reference the counter increments and rasterization
fires once the counter reaches 3 and the height is not the placeholder;
otherwise the counter resets, the reference updates, and the effect
returns early. -/
def driverStep (s : DriverState) (h : ℚ) : DriverState :=
  if s.exported then s
  else if |s.prevH - h| < 1 then
    let c := s.stableCount + 1
    if 3 ≤ c ∧ h ≠ 2400 then ⟨s.prevH, c, true⟩ else ⟨s.prevH, c, false⟩
  else ⟨h, 0, false⟩

/-- Fold the stabilization effect over a sequence of height reports
(the first report is the mount run at the 2400 placeholder). -/
def driverRun (reports : List ℚ) : DriverState := reports.foldl driverStep driverInit

/-! ### Claim C2 -/

/-- C2 (counterexample): the report sequence 2400 → 800 → 800 → 800 does
NOT rasterize upon the third repeated 800 — the change report resets the
counter to 0 and returns, so the two following 800s only reach count 2. -/
theorem driver_third_repeat_counterexample :
    (driverRun [2400, 800, 800, 800]).exported = false := by
  norm_num [driverRun, driverInit, driverStep, List.foldl_cons, List.foldl_nil,
    abs_sub_lt_iff]

/-- C2 (amended): the driver never rasterizes before the stability
counter reaches 3 on a report within 1px of the reference with the
height differing from the 2400 placeholder; the sequence
2400 → 800 → 800 → 800 does not rasterize yet, and one further 800 report
triggers rasterization exactly then. -/
theorem driver_stabilization :
    (∀ (s : DriverState) (h : ℚ), s.exported = false →
      (driverStep s h).exported = true →
        3 ≤ s.stableCount + 1 ∧ |s.prevH - h| < 1 ∧ h ≠ 2400) ∧
    (driverRun [2400, 800, 800, 800]).exported = false ∧
    (driverRun [2400, 800, 800, 800, 800]).exported = true := by
  refine ⟨?_, ?_, ?_⟩
  · intro s h hexp hstep
    simp only [driverStep, hexp, Bool.false_eq_true, if_false] at hstep
    split_ifs at hstep with h1 h2
    exact ⟨h2.1, h1, h2.2⟩
  · norm_num [driverRun, driverInit, driverStep, List.foldl_cons, List.foldl_nil,
      abs_sub_lt_iff]
  · norm_num [driverRun, driverInit, driverStep, List.foldl_cons, List.foldl_nil,
      abs_sub_lt_iff]

/-- Witness for C2: a concrete rasterizing step (reference 800, counter 2,
a third 800 report) satisfies the guard conclusions. -/
theorem driver_stabilization_witness :
    3 ≤ (⟨800, 2, false⟩ : DriverState).stableCount + 1 ∧
      |(⟨800, 2, false⟩ : DriverState).prevH - 800| < 1 ∧ (800 : ℚ) ≠ 2400 :=
  driver_stabilization.1 ⟨800, 2, false⟩ 800 rfl
    (by norm_num [driverStep, abs_sub_lt_iff])

/-! ## 4.6 Export Orchestrator
(`src/web/src/renderer/canvas/index.tsx`, `exportPagesToPng` lines 91-116,
and part_000, `onExport` lines 234-293) -/

/-- One exported page image. -/
structure ExportItem where
  name : LStr
  dataUrl : LStr
deriving DecidableEq

/-- Rasterization is abstracted as an oracle that may fail;
`renderPageToDataURL` resolves failures as the empty string
(`catch { onDone('') }`) and never rejects. -/
def renderPageToDataURL (raster : Page → Option LStr) (p : Page) : LStr :=
  (raster p).getD []

/-- 1-based page file name `page-${i + 1}.png`. -/
def pageFileName (i : ℕ) : LStr :=
  str ("page-") ++ (Nat.repr (i + 1)).data ++ str (".png")

/-- `exportPagesToPng`: renders every page of `data.pages || []` in order
and collects every result, empty or not. -/
def exportPagesToPng (raster : Page → Option LStr) (data : Data) : List ExportItem :=
  (data.pages.getD []).enum.map
    (fun ip => ⟨pageFileName ip.1, renderPageToDataURL raster ip.2⟩)

/-- Result contract of the packaging collaborator. -/
structure SaveResult where
  ok : Bool
  error : Option LStr

/-- `onExport`: render all sheets sequentially, hand the collected items
to the packaging collaborator and succeed iff it reports ok
(`if (!res?.ok) throw`).  The rendered data URLs are never inspected for
emptiness.  The collaborator `savePngsMultiSheet` lives outside the
provided sources; modelled from the spec: per §6 it accepts the
per-sheet item arrays and returns `{ ok, error? }`, with no contract
relating `ok` to the items' contents, so it is an arbitrary function
parameter here. -/
def onExportRun (raster : Page → Option LStr) (sheets : List (LStr × Data))
    (save : List (LStr × List ExportItem) → SaveResult) :
    List (LStr × List ExportItem) × Bool :=
  let allExports := sheets.map (fun sd => (sd.1, exportPagesToPng raster sd.2))
  (allExports, (save allExports).ok)

/-! ### Claim C9 -/

/-- A page whose rasterization fails. -/
def pageA : Page := { region := some (str ("A")) }

/-- A page whose rasterization succeeds. -/
def pageB : Page := { region := some (str ("B")) }

/-- Rasterization oracle failing exactly on `pageA`. -/
def rasterFailA : Page → Option LStr :=
  fun p => if p.region = some (str ("A")) then none else some (str ("img"))

/-- A packaging collaborator that reports success. -/
def saveAlwaysOk : List (LStr × List ExportItem) → SaveResult := fun _ => ⟨true, none⟩

/-- C9: a failed rasterization resolves as an empty (not rejected) result
and the render phase still produces the remaining pages — but the
orchestrator never checks for empty results: with the packaging
collaborator succeeding, the export completes reporting success even
though page 1's image is empty, contradicting the claimed overall
failure. -/
theorem export_empty_result_reports_success :
    exportPagesToPng rasterFailA { pages := some [pageA, pageB] } =
      [⟨pageFileName 0, []⟩, ⟨pageFileName 1, str ("img")⟩] ∧
    (onExportRun rasterFailA [(str ("S"), { pages := some [pageA, pageB] })]
        saveAlwaysOk).2 = true := by
  constructor
  · rfl
  · rfl
